import Mathlib

/-!
Shallow embedding of the Go package `multipartreader`
(files `multipartreader.go` and the two revisions kept in the repository).

Go strings and byte slices are modelled as `List Char` (all data handled by
the package is ASCII, so byte length and character length coincide).
An `io.Reader` held in the `readers` slice is modelled by the full byte
sequence it would deliver (`data`) plus a flag `ok` saying whether its
backing handle is still open at stream-consumption time (`false` models a
file that was closed before the unified stream is read: reading it yields
the error `file already closed`, as `os.File.Read` does after `Close`).
-/

/-- Character list of a string literal. -/
def str (s : String) : List Char := s.data

/-- One element of the `readers` slice: the bytes it would produce and
whether its backing handle is still open when the stream is consumed. -/
structure Src where
  data : List Char
  ok : Bool
deriving DecidableEq, Repr

/-- Concatenation of the contents of a list of sources. -/
def joinData (l : List Src) : List Char := (l.map Src.data).flatten

/-- Total number of bytes remaining in a list of sources. -/
def srcLen (l : List Src) : Nat := (l.map (fun s => s.data.length)).sum

/-- State of the embedded `mime/multipart.Writer`: its current boundary and
whether a part has already been created through it (`w.lastpart != nil`). -/
structure GoWriter where
  boundary : List Char
  lastpart : Bool
deriving DecidableEq, Repr

/-- The `MultipartReader` struct of the Go source. `multiReader` is the
cached concatenating cursor built by `GetMultiReader`: `io.MultiReader`
copies the readers slice, so the cache is a snapshot of `readers` taken at
build time, here stored as the list of sources still to be consumed. -/
structure MultipartReader where
  contentType : List Char
  boundary : List Char
  writer : GoWriter
  readers : List Src
  length : Int
  multiReader : Option (List Src)
  count : Int
deriving DecidableEq, Repr

/-- Characters that make `multipart.Writer.FormDataContentType` quote the
boundary token. -/
def needsQuote (c : Char) : Bool :=
  c ∈ str "()<>@,;:\\\"/[]?= "

/-- `multipart.Writer.FormDataContentType`. -/
def formDataContentType (b : List Char) : List Char :=
  if b.any needsQuote then
    str "multipart/form-data; boundary=\"" ++ b ++ str "\""
  else
    str "multipart/form-data; boundary=" ++ b

/-- The closing-boundary literal `"\r\n--" + boundary + "--\r\n"` built by `New`. -/
def closeLit (b : List Char) : List Char := str "\r\n--" ++ b ++ str "--\r\n"

/-- The closing-boundary source (`closeReader`) as it sits in `readers`. -/
def closeSrc (b : List Char) : Src := ⟨closeLit b, true⟩

/-- `New()`. The boundary token randomly generated by `multipart.NewWriter`
is passed as the parameter `b`. The first reader is the writer's body
buffer, empty at construction; `mr.length` is `bodyReader.Len() + len(formClose)`. -/
def New (b : List Char) : MultipartReader :=
  { contentType := formDataContentType b
    boundary := b
    writer := ⟨b, false⟩
    readers := [⟨[], true⟩, closeSrc b]
    length := (0 : Int) + ((closeLit b).length : Int)
    multiReader := none
    count := 0 }

/-- The zero value `MultipartReader{}` (not produced by `New`): every field
at its Go zero value, in particular an empty `readers` slice. -/
def zeroValue : MultipartReader :=
  { contentType := []
    boundary := []
    writer := ⟨[], false⟩
    readers := []
    length := 0
    multiReader := none
    count := 0 }

/-- `AddReader(r, length)`: `i := len(mr.readers);
mr.readers = append(mr.readers[:i-1], r, mr.readers[i-1]);
mr.length += length`. On the zero value (`readers` empty) the slice
expression `mr.readers[:i-1]` has the negative bound `-1` and Go panics,
modelled as `none`. -/
def addReader (mr : MultipartReader) (r : Src) (l : Int) : Option MultipartReader :=
  if mr.readers.isEmpty then none
  else
    let i := mr.readers.length
    some { mr with
      readers := mr.readers.take (i - 1) ++ r :: mr.readers.drop (i - 1)
      length := mr.length + l }

/-- The form-part header literal produced by `AddFormReader`:
`fmt.Sprintf("--%s\r\nContent-Disposition: form-data; name=\"%s\"; filename=\"%s\"\r\n\r\n", boundary, name, filename)`. -/
def formLit (b n f : List Char) : List Char :=
  str "--" ++ b ++ str "\r\nContent-Disposition: form-data; name=\"" ++ n ++
    str "\"; filename=\"" ++ f ++ str "\"\r\n\r\n"

/-- `AddFormReader(name, filename, length, r)`. -/
def addFormReader (mr : MultipartReader) (n f : List Char) (l : Int) (r : Src) :
    Option MultipartReader :=
  let form := formLit mr.boundary n f
  (addReader mr ⟨form, true⟩ (form.length : Int)).bind fun m1 => addReader m1 r l

/-- The header literal produced by `WriteFile`/`AddFile`: the field name is
the literal `"file"` and the filename is `fs.Name()`. -/
def fileFormLit (b f : List Char) : List Char := formLit b (str "file") f

/-- `WriteFile(key, filename)` in the case where `os.Open` succeeds and the
file's content is `content` (so `stat.Size() = len content`). The `key`
parameter is unused by the Go code (the field name is the literal `"file"`).
The returned `Bool` is whether the file handle is still open when
`WriteFile` returns: the Go code runs `defer fs.Close()`, so it is `false`,
and the appended source carries `ok := false` because its handle is closed
by the time the unified stream is read. -/
def writeFile (mr : MultipartReader) (key filename content : List Char) :
    Option MultipartReader × Bool :=
  let form := fileFormLit mr.boundary filename
  ((addReader mr ⟨form, true⟩ (form.length : Int)).bind fun m1 =>
      addReader m1 ⟨content, false⟩ (content.length : Int),
   false)

/-- `AddFile(file)` of the other revision in the repository: the caller
passes an open `*os.File` and the method does not close it, so the handle
stays open (`ok := true`, returned flag `true`). -/
def addFile (mr : MultipartReader) (filename content : List Char) :
    Option MultipartReader × Bool :=
  let form := fileFormLit mr.boundary filename
  ((addReader mr ⟨form, true⟩ (form.length : Int)).bind fun m1 =>
      addReader m1 ⟨content, true⟩ (content.length : Int),
   true)

/-- One call to `(*io.multiReader).Read` with a buffer of size `c`:
readers that report `EOF` are popped and the loop retries; a non-`EOF`
error (a closed file) is returned at once; otherwise up to `c` bytes of the
first non-exhausted reader are delivered. An empty reader list is `EOF`,
rendered as `.ok ([], [])`. -/
def multiRead : List Src → Nat → Except (List Char) (List Char × List Src)
  | [], _ => .ok ([], [])
  | s :: rest, c =>
    if s.ok = false then .error (str "file already closed")
    else if s.data.isEmpty then multiRead rest c
    else .ok (s.data.take c, ⟨s.data.drop c, s.ok⟩ :: rest)

/-- Repeatedly reading a source list with buffer size `c` until `EOF` or an
error, with explicit fuel (any fuel above `srcLen l` gives the fixpoint:
each productive read delivers at least one byte when `1 ≤ c`). Returns the
concatenated output and the error that ended the loop, if any. -/
def drainFuel (c : Nat) : Nat → List Src → List Char × Option (List Char)
  | 0, _ => ([], none)
  | fuel + 1, l =>
    match multiRead l c with
    | .error e => ([], some e)
    | .ok (chunk, l2) =>
      if chunk.isEmpty then ([], none)
      else
        let r := drainFuel c fuel l2
        (chunk ++ r.1, r.2)

/-- Full consumption of a source list with buffer size `c`. -/
def drainS (c : Nat) (l : List Src) : List Char × Option (List Char) :=
  drainFuel c (srcLen l + 1) l

/-- `GetMultiReader()`: builds `io.MultiReader(mr.readers...)` on first use
and caches it (`io.MultiReader` copies the slice, so the cache is a
snapshot of `readers` at build time). Returns the cursor and the updated
struct. -/
def getMultiReader (mr : MultipartReader) : List Src × MultipartReader :=
  match mr.multiReader with
  | some ms => (ms, mr)
  | none => (mr.readers, { mr with multiReader := some mr.readers })

/-- The cursor a read would consume: the cached snapshot if built, else the
current `readers` slice. -/
def cursorOf (mr : MultipartReader) : List Src :=
  match mr.multiReader with
  | some ms => ms
  | none => mr.readers

/-- Result of one `Read` call: the bytes delivered, the error returned
(`io.EOF` at end of stream, or a source's read error), and the struct
afterwards. -/
structure ReadRes where
  chunk : List Char
  err : Option (List Char)
  mr : MultipartReader
deriving DecidableEq, Repr

/-- `Read(p)` with a buffer of size `c`: obtains the cached cursor (building
it on first call), reads one chunk from it, and adds the number of bytes
delivered to `count` (`atomic.AddInt64`). On a source error no bytes are
delivered and `count` is unchanged. -/
def Read (mr : MultipartReader) (c : Nat) : ReadRes :=
  let q := getMultiReader mr
  match multiRead q.1 c with
  | .error e => ⟨[], some e, q.2⟩
  | .ok (chunk, ms2) =>
    ⟨chunk, if chunk.isEmpty then some (str "EOF") else none,
     { q.2 with multiReader := some ms2, count := q.2.count + (chunk.length : Int) }⟩

/-- Repeated `Read` calls with buffer size `c` until `EOF` or an error,
with explicit fuel (any fuel above `srcLen (cursorOf mr)` reaches the end
when `1 ≤ c`). Returns all bytes delivered, the terminating error if it
was not `EOF`, and the final struct. -/
def drainMRFuel (c : Nat) : Nat → MultipartReader → List Char × Option (List Char) × MultipartReader
  | 0, mr => ([], none, mr)
  | fuel + 1, mr =>
    let r := Read mr c
    if r.chunk.isEmpty then
      ([], if r.err = some (str "EOF") then none else r.err, r.mr)
    else
      let rest := drainMRFuel c fuel r.mr
      (r.chunk ++ rest.1, rest.2.1, rest.2.2)

/-- Full consumption of the stream through `Read`. -/
def drainMR (c : Nat) (mr : MultipartReader) : List Char × Option (List Char) × MultipartReader :=
  drainMRFuel c (srcLen (cursorOf mr) + 1) mr

/-- `Count()`. -/
def MultipartReader.Count (mr : MultipartReader) : Int := mr.count

/-- `ContentType()`. -/
def MultipartReader.ContentType (mr : MultipartReader) : List Char := mr.contentType

/-- `Boundary()`. -/
def MultipartReader.Boundary (mr : MultipartReader) : List Char := mr.boundary

/-- The fields of `*http.Request` that `SetupRequest` touches: the body
(the unified cursor, wrapped in a `NopCloser`), the added `Content-Type`
header value, and `ContentLength`. -/
structure Request where
  body : List Src
  contentTypeHeader : List Char
  contentLength : Int
deriving DecidableEq, Repr

/-- `SetupRequest(req)`: `req.Body = mr.GetCloseReader()` (which builds the
cursor through `GetMultiReader`), adds the `Content-Type` header, and sets
`req.ContentLength = mr.length`. Returns the request fields and the struct
(whose cursor is now built). -/
def setupRequest (mr : MultipartReader) : Request × MultipartReader :=
  let q := getMultiReader mr
  (⟨q.1, q.2.contentType, q.2.length⟩, q.2)

/-- Boundary characters accepted by `multipart.Writer.SetBoundary`:
ASCII letters and digits, the punctuation of RFC 2046 section 5.1.1, and
space (space is rejected in last position by `validBoundary`). -/
def boundaryChar (c : Char) : Bool :=
  ('A' ≤ c && c ≤ 'Z') || ('a' ≤ c && c ≤ 'z') || ('0' ≤ c && c ≤ '9') ||
    c ∈ str "'()+_,-./:=? "

/-- The validation performed by `multipart.Writer.SetBoundary`: length
between 1 and 70, every character allowed, and no trailing space. -/
def validBoundary (b : List Char) : Bool :=
  decide (1 ≤ b.length) && decide (b.length ≤ 70) && b.all boundaryChar &&
    !(b.getLast? == some ' ')

/-- `(*multipart.Writer).SetBoundary`: fails if a part was already created
through the writer or the token is invalid; on success updates only the
writer's own boundary field. -/
def writerSetBoundary (w : GoWriter) (b : List Char) : Option (List Char) × GoWriter :=
  if w.lastpart then (some (str "mime: SetBoundary called after write"), w)
  else if b.length < 1 || 70 < b.length then (some (str "mime: invalid boundary length"), w)
  else if !(b.all boundaryChar && !(b.getLast? == some ' ')) then
    (some (str "mime: invalid boundary character"), w)
  else (none, { w with boundary := b })

/-- `SetBoundary(boundary)`: delegates to the embedded writer's
`SetBoundary` and returns its error; no other field of the struct is
touched. -/
def SetBoundary (mr : MultipartReader) (b : List Char) : Option (List Char) × MultipartReader :=
  let r := writerSetBoundary mr.writer b
  (r.1, { mr with writer := r.2 })

/-- The append operations a caller can perform on the readers slice, with
the data the appended reader would deliver (for `writeF`: the content of
the opened file). -/
inductive Op
  | addR (d : List Char) (decl : Int)
  | addForm (n f : List Char) (decl : Int) (d : List Char)
  | writeF (key f content : List Char)
deriving DecidableEq, Repr

/-- Runs one operation. -/
def applyOp (mr : MultipartReader) : Op → Option MultipartReader
  | .addR d decl => addReader mr ⟨d, true⟩ decl
  | .addForm n f decl d => addFormReader mr n f decl ⟨d, true⟩
  | .writeF key f content => (writeFile mr key f content).1

/-- Runs a sequence of operations. -/
def applyOps (mr : MultipartReader) : List Op → Option MultipartReader
  | [] => some mr
  | op :: rest => (applyOp mr op).bind fun m1 => applyOps m1 rest

/-- The sources an operation inserts (in order) before the closing
boundary, given the struct's boundary token. -/
def opSrcs (b : List Char) : Op → List Src
  | .addR d _ => [⟨d, true⟩]
  | .addForm n f _ d => [⟨formLit b n f, true⟩, ⟨d, true⟩]
  | .writeF _ f content => [⟨fileFormLit b f, true⟩, ⟨content, false⟩]

/-- The declared length an operation adds to `mr.length`. -/
def opDecl (b : List Char) : Op → Int
  | .addR _ d => d
  | .addForm n f d _ => ((formLit b n f).length : Int) + d
  | .writeF _ f content => ((fileFormLit b f).length : Int) + (content.length : Int)

/-- Sum of the declared lengths of a sequence of operations. -/
def sumDecl (b : List Char) (ops : List Op) : Int := (ops.map (opDecl b)).sum

/-- The bytes an operation contributes to the stream. -/
def opBytes (b : List Char) (op : Op) : List Char := joinData (opSrcs b op)

/-- Whether an operation appends no file source (the file source appended
by `writeF` is closed before the stream is consumed). -/
def Op.noFile : Op → Bool
  | .writeF _ _ _ => false
  | _ => true

/-- Concrete operation list used by the C1 witness. -/
def c1ops : List Op :=
  [.addR (str "part1") 5, .addForm (str "a") (str "f.txt") 5 (str "hello")]

/-- Concrete operation list used by the C4 witness: content `"hello"` with
declared length 0. -/
def c4ops : List Op := [.addR (str "hello") 0]

lemma joinData_nil : joinData [] = [] := rfl

lemma joinData_cons (s : Src) (l : List Src) : joinData (s :: l) = s.data ++ joinData l := by
  simp [joinData]

lemma joinData_append (l1 l2 : List Src) :
    joinData (l1 ++ l2) = joinData l1 ++ joinData l2 := by
  simp [joinData]

lemma srcLen_cons (s : Src) (l : List Src) : srcLen (s :: l) = s.data.length + srcLen l := by
  simp [srcLen]

lemma multiRead_error_eq {l : List Src} {c : Nat} {e : List Char}
    (h : multiRead l c = .error e) : e = str "file already closed" := by
  induction l with
  | nil => simp [multiRead] at h
  | cons s rest ih =>
    cases hok : s.ok with
    | false =>
      rw [multiRead, if_pos (by rw [hok])] at h
      exact (Except.error.injEq _ _).mp h.symm
    | true =>
      rw [multiRead, if_neg (by rw [hok]; simp)] at h
      by_cases hd : s.data.isEmpty
      · rw [if_pos hd] at h; exact ih h
      · rw [if_neg hd] at h; exact absurd h (by simp)

lemma multiRead_ok_parts {l l2 : List Src} {c : Nat} {chunk : List Char}
    (h : multiRead l c = .ok (chunk, l2)) :
    chunk ++ joinData l2 = joinData l ∧ chunk.length + srcLen l2 = srcLen l := by
  induction l with
  | nil =>
    simp [multiRead] at h
    obtain ⟨h1, h2⟩ := h
    subst h1; subst h2
    simp [joinData, srcLen]
  | cons s rest ih =>
    cases hok : s.ok with
    | false => rw [multiRead, if_pos (by rw [hok])] at h; exact absurd h (by simp)
    | true =>
      rw [multiRead, if_neg (by rw [hok]; simp)] at h
      by_cases hd : s.data.isEmpty
      · rw [if_pos hd] at h
        have hdata : s.data = [] := List.isEmpty_iff.mp hd
        obtain ⟨h1, h2⟩ := ih h
        exact ⟨by rw [joinData_cons, hdata, List.nil_append, h1],
               by rw [srcLen_cons, hdata]; simpa using h2⟩
      · rw [if_neg hd] at h
        simp only [Except.ok.injEq, Prod.mk.injEq] at h
        obtain ⟨h1, h2⟩ := h
        subst h1; subst h2
        constructor
        · rw [joinData_cons, joinData_cons]
          rw [← List.append_assoc, List.take_append_drop]
        · rw [srcLen_cons, srcLen_cons]
          simp only [List.length_take, List.length_drop]
          omega

lemma multiRead_empty_chunk {l l2 : List Src} {c : Nat} (hc : 1 ≤ c)
    (h : multiRead l c = .ok ([], l2)) : l2 = [] ∧ joinData l = [] := by
  induction l with
  | nil => simp [multiRead] at h; simp [h, joinData]
  | cons s rest ih =>
    cases hok : s.ok with
    | false => rw [multiRead, if_pos (by rw [hok])] at h; exact absurd h (by simp)
    | true =>
      rw [multiRead, if_neg (by rw [hok]; simp)] at h
      by_cases hd : s.data.isEmpty
      · rw [if_pos hd] at h
        have hdata : s.data = [] := List.isEmpty_iff.mp hd
        obtain ⟨h1, h2⟩ := ih h
        exact ⟨h1, by rw [joinData_cons, hdata, List.nil_append, h2]⟩
      · rw [if_neg hd] at h
        simp only [Except.ok.injEq, Prod.mk.injEq] at h
        have hdata : s.data ≠ [] := fun hn => hd (List.isEmpty_iff.mpr hn)
        have : s.data.take c ≠ [] := by
          cases hs : s.data with
          | nil => exact absurd hs hdata
          | cons a as =>
            cases c with
            | zero => omega
            | succ m => simp [hs]
        exact absurd h.1 this

lemma multiRead_allOk {l : List Src} (c : Nat) (h : ∀ s ∈ l, s.ok = true) :
    ∃ chunk l2, multiRead l c = .ok (chunk, l2) ∧ ∀ s ∈ l2, s.ok = true := by
  induction l with
  | nil => exact ⟨[], [], rfl, by simp⟩
  | cons s rest ih =>
    have hs : s.ok = true := h s (by simp)
    by_cases hd : s.data.isEmpty
    · obtain ⟨ch, l2, hm, hok2⟩ := ih (fun t ht => h t (by simp [ht]))
      refine ⟨ch, l2, ?_, hok2⟩
      rw [multiRead, if_neg (by rw [hs]; simp), if_pos hd]
      exact hm
    · refine ⟨s.data.take c, ⟨s.data.drop c, s.ok⟩ :: rest, ?_, ?_⟩
      · rw [multiRead, if_neg (by rw [hs]; simp), if_neg hd]
      · intro t ht
        rcases List.mem_cons.mp ht with h1 | h1
        · rw [h1]; exact hs
        · exact h t (by simp [h1])

lemma drainFuel_allOk {c : Nat} (hc : 1 ≤ c) :
    ∀ fuel (l : List Src), srcLen l < fuel → (∀ s ∈ l, s.ok = true) →
      drainFuel c fuel l = (joinData l, none) := by
  intro fuel
  induction fuel with
  | zero => intro l hlt _; omega
  | succ fuel ih =>
    intro l hlt hok
    obtain ⟨chunk, l2, hm, hok2⟩ := multiRead_allOk c hok
    obtain ⟨hjoin, hlen⟩ := multiRead_ok_parts hm
    by_cases hch : chunk.isEmpty
    · have hchunk : chunk = [] := List.isEmpty_iff.mp hch
      subst hchunk
      have hj := (multiRead_empty_chunk hc hm).2
      rw [drainFuel, hm]
      simp [hj]
    · have hchunk : chunk ≠ [] := fun hn => hch (List.isEmpty_iff.mpr hn)
      have hpos : 1 ≤ chunk.length := List.length_pos.mpr hchunk
      have hrec := ih l2 (by omega) hok2
      rw [drainFuel, hm]
      simp only [hch, if_false, Bool.false_eq_true, hrec]
      rw [← hjoin]

lemma drainS_allOk {c : Nat} {l : List Src} (hc : 1 ≤ c) (hok : ∀ s ∈ l, s.ok = true) :
    drainS c l = (joinData l, none) :=
  drainFuel_allOk hc _ l (Nat.lt_succ_self _) hok

lemma getMultiReader_eq (mr : MultipartReader) :
    getMultiReader mr = (cursorOf mr, { mr with multiReader := some (cursorOf mr) }) := by
  cases mr with
  | mk ct b w rs len mre cnt => cases mre <;> simp [getMultiReader, cursorOf]

lemma Read_eq (mr : MultipartReader) (c : Nat) :
    Read mr c =
      match multiRead (cursorOf mr) c with
      | .error e => ⟨[], some e, { mr with multiReader := some (cursorOf mr) }⟩
      | .ok (chunk, ms2) =>
        ⟨chunk, if chunk.isEmpty then some (str "EOF") else none,
         { mr with multiReader := some ms2, count := mr.count + (chunk.length : Int) }⟩ := by
  rw [Read, getMultiReader_eq]

lemma drainMRFuel_spec (c : Nat) :
    ∀ fuel (mr : MultipartReader),
      (drainMRFuel c fuel mr).1 = (drainFuel c fuel (cursorOf mr)).1 ∧
      (drainMRFuel c fuel mr).2.1 = (drainFuel c fuel (cursorOf mr)).2 ∧
      (drainMRFuel c fuel mr).2.2.count = mr.count + ((drainMRFuel c fuel mr).1.length : Int) := by
  intro fuel
  induction fuel with
  | zero => intro mr; simp [drainMRFuel, drainFuel]
  | succ fuel ih =>
    intro mr
    rw [drainMRFuel, drainFuel, Read_eq]
    cases h : multiRead (cursorOf mr) c with
    | error e =>
      have he : e = str "file already closed" := multiRead_error_eq h
      have hne : ¬ (e = str "EOF") := by subst he; decide
      simp [hne]
    | ok p =>
      obtain ⟨chunk, ms2⟩ := p
      by_cases hch : chunk.isEmpty
      · have hchunk : chunk = [] := List.isEmpty_iff.mp hch
        subst hchunk
        simp
      · have hcur : cursorOf { mr with multiReader := some ms2, count := mr.count + (chunk.length : Int) } = ms2 := rfl
        obtain ⟨ih1, ih2, ih3⟩ := ih { mr with multiReader := some ms2, count := mr.count + (chunk.length : Int) }
        rw [hcur] at ih1 ih2
        simp only [hch, if_false, Bool.false_eq_true, reduceIte]
        refine ⟨by simpa using ih1, by simpa using ih2, ?_⟩
        rw [ih3, List.length_append]
        push_cast
        ring

lemma drainMR_spec (c : Nat) (mr : MultipartReader) :
    (drainMR c mr).1 = (drainS c (cursorOf mr)).1 ∧
    (drainMR c mr).2.1 = (drainS c (cursorOf mr)).2 ∧
    (drainMR c mr).2.2.count = mr.count + ((drainMR c mr).1.length : Int) :=
  drainMRFuel_spec c (srcLen (cursorOf mr) + 1) mr

lemma drainMR_congr {mr1 mr2 : MultipartReader} (c : Nat)
    (h : cursorOf mr1 = cursorOf mr2) :
    (drainMR c mr1).1 = (drainMR c mr2).1 ∧ (drainMR c mr1).2.1 = (drainMR c mr2).2.1 := by
  obtain ⟨h11, h12, _⟩ := drainMR_spec c mr1
  obtain ⟨h21, h22, _⟩ := drainMR_spec c mr2
  rw [h11, h12, h21, h22, h]
  exact ⟨rfl, rfl⟩

lemma addReader_append {mr : MultipartReader} {pre : List Src} {x : Src}
    (r : Src) (l : Int) (h : mr.readers = pre ++ [x]) :
    addReader mr r l = some { mr with readers := pre ++ [r, x], length := mr.length + l } := by
  rw [addReader]
  have hne : mr.readers.isEmpty = false := by
    rw [h]; cases pre <;> simp
  rw [hne]
  simp only [Bool.false_eq_true, if_false]
  congr 1
  have hlen : mr.readers.length - 1 = pre.length := by
    rw [h]; simp
  have htake : mr.readers.take (mr.readers.length - 1) = pre := by
    rw [hlen, h]; exact List.take_left pre [x]
  have hdrop : mr.readers.drop (mr.readers.length - 1) = [x] := by
    rw [hlen, h]; exact List.drop_left pre [x]
  rw [htake, hdrop]

lemma addReader2 {mr : MultipartReader} {pre : List Src} {x : Src}
    (r1 r2 : Src) (l1 l2 : Int) (h : mr.readers = pre ++ [x]) :
    (addReader mr r1 l1).bind (fun m1 => addReader m1 r2 l2) =
      some { mr with readers := pre ++ [r1, r2, x], length := mr.length + l1 + l2 } := by
  rw [addReader_append r1 l1 h]
  rw [Option.some_bind]
  have h2 : ({ mr with readers := pre ++ [r1, x], length := mr.length + l1 } :
      MultipartReader).readers = (pre ++ [r1]) ++ [x] := by simp
  rw [addReader_append r2 l2 h2]
  congr 1
  simp

lemma applyOp_append {mr : MultipartReader} {pre : List Src} {x : Src}
    (op : Op) (h : mr.readers = pre ++ [x]) :
    applyOp mr op = some { mr with
      readers := pre ++ opSrcs mr.boundary op ++ [x]
      length := mr.length + opDecl mr.boundary op } := by
  cases op with
  | addR d decl =>
    rw [applyOp, addReader_append ⟨d, true⟩ decl h]
    congr 1
    simp [opSrcs, opDecl]
  | addForm n f decl d =>
    rw [applyOp, addFormReader, addReader2 _ _ _ _ h]
    simp [opSrcs, opDecl, MultipartReader.mk.injEq, add_assoc]
  | writeF key f content =>
    rw [applyOp, writeFile, addReader2 _ _ _ _ h]
    simp [opSrcs, opDecl, MultipartReader.mk.injEq, add_assoc]

lemma applyOps_append :
    ∀ (ops : List Op) (mr : MultipartReader) (pre : List Src) (x : Src),
      mr.readers = pre ++ [x] →
      ∃ mr2, applyOps mr ops = some mr2 ∧
        mr2.readers = pre ++ (ops.map (opSrcs mr.boundary)).flatten ++ [x] ∧
        mr2.length = mr.length + sumDecl mr.boundary ops ∧
        mr2.boundary = mr.boundary ∧ mr2.contentType = mr.contentType ∧
        mr2.multiReader = mr.multiReader ∧ mr2.count = mr.count ∧ mr2.writer = mr.writer := by
  intro ops
  induction ops with
  | nil =>
    intro mr pre x h
    exact ⟨mr, rfl, by simpa using h, by simp [sumDecl], rfl, rfl, rfl, rfl, rfl⟩
  | cons op rest ih =>
    intro mr pre x h
    have h1 := applyOp_append op h
    have hmid : ({ mr with
        readers := pre ++ opSrcs mr.boundary op ++ [x]
        length := mr.length + opDecl mr.boundary op } : MultipartReader).readers =
        (pre ++ opSrcs mr.boundary op) ++ [x] := by simp
    obtain ⟨mr2, hap, hr, hl, hb, hct, hmre, hcnt, hw⟩ := ih _ _ _ hmid
    refine ⟨mr2, ?_, ?_, ?_, hb, hct, hmre, hcnt, hw⟩
    · rw [applyOps, h1, Option.some_bind]
      exact hap
    · rw [hr]
      simp [List.append_assoc]
    · rw [hl]
      simp only [sumDecl, List.map_cons, List.sum_cons]
      ring

lemma cursorOf_eq_of_none {mr : MultipartReader} (h : mr.multiReader = none) :
    cursorOf mr = mr.readers := by
  simp [cursorOf, h]

lemma cursorOf_eq_of_some {mr : MultipartReader} {ms : List Src} (h : mr.multiReader = some ms) :
    cursorOf mr = ms := by
  simp [cursorOf, h]

lemma applyOps_New {b : List Char} {ops : List Op} {mr : MultipartReader}
    (h : applyOps (New b) ops = some mr) :
    mr.readers = ⟨[], true⟩ :: (ops.map (opSrcs b)).flatten ++ [closeSrc b] ∧
    mr.length = ((closeLit b).length : Int) + sumDecl b ops ∧
    mr.boundary = b ∧ mr.contentType = formDataContentType b ∧
    mr.multiReader = none ∧ mr.count = 0 ∧ mr.writer = ⟨b, false⟩ := by
  obtain ⟨mr2, hap, hr, hl, hb, hct, hmre, hcnt, hw⟩ :=
    applyOps_append ops (New b) [⟨[], true⟩] (closeSrc b) rfl
  rw [h] at hap
  obtain rfl : mr = mr2 := by
    simpa using hap
  refine ⟨by simpa using hr, by simpa [New] using hl, hb, hct, hmre, hcnt, hw⟩

lemma opSrcs_ok {b : List Char} {op : Op} (h : op.noFile = true) :
    ∀ s ∈ opSrcs b op, s.ok = true := by
  cases op with
  | addR d decl =>
    intro s hs
    simp [opSrcs] at hs
    simp [hs]
  | addForm n f decl d =>
    intro s hs
    simp [opSrcs] at hs
    rcases hs with h1 | h1 <;> simp [h1]
  | writeF k f ct => simp [Op.noFile] at h

lemma readers_allOk {b : List Char} {ops : List Op} {mr : MultipartReader}
    (hr : mr.readers = ⟨[], true⟩ :: (ops.map (opSrcs b)).flatten ++ [closeSrc b])
    (hnf : ∀ op ∈ ops, op.noFile = true) :
    ∀ s ∈ mr.readers, s.ok = true := by
  intro s hs
  rw [hr] at hs
  rcases List.mem_cons.mp hs with h1 | h1
  · rw [h1]
  · rcases List.mem_append.mp h1 with h2 | h2
    · obtain ⟨ls, hls, hsl⟩ := List.mem_flatten.mp h2
      obtain ⟨op, hop, rfl⟩ := List.mem_map.mp hls
      exact opSrcs_ok (hnf op hop) s hsl
    · rw [List.mem_singleton.mp h2]
      rfl

lemma joinData_opSrcs_flatten (b : List Char) (ops : List Op) :
    joinData ((ops.map (opSrcs b)).flatten) = (ops.map (opBytes b)).flatten := by
  induction ops with
  | nil => rfl
  | cons op rest ih =>
    simp only [List.map_cons, List.flatten_cons, joinData_append, ih, opBytes]

/-- The stream of a reader built by append operations from `New`:
all bytes of the appended sources in order, then the closing boundary. -/
lemma applyOps_drain {b : List Char} {ops : List Op} {mr : MultipartReader} {c : Nat}
    (h : applyOps (New b) ops = some mr) (hnf : ∀ op ∈ ops, op.noFile = true) (hc : 1 ≤ c) :
    (drainMR c mr).1 = (ops.map (opBytes b)).flatten ++ closeLit b ∧
    (drainMR c mr).2.1 = none := by
  obtain ⟨hr, hl, hb, hct, hmre, hcnt, hw⟩ := applyOps_New h
  have hcur : cursorOf mr = mr.readers := cursorOf_eq_of_none hmre
  have hok : ∀ s ∈ mr.readers, s.ok = true := readers_allOk hr hnf
  obtain ⟨d1, d2, _⟩ := drainMR_spec c mr
  rw [hcur, drainS_allOk hc hok] at d1 d2
  refine ⟨?_, d2⟩
  rw [d1, hr]
  simp only [joinData_cons, joinData_append, joinData_opSrcs_flatten, closeSrc,
    joinData_nil, List.append_nil, List.nil_append]

lemma getMultiReader_snd_length (mr : MultipartReader) :
    (getMultiReader mr).2.length = mr.length := by
  rw [getMultiReader_eq]

lemma setupRequest_contentLength (mr : MultipartReader) :
    (setupRequest mr).1.contentLength = mr.length := by
  rw [setupRequest, getMultiReader_eq]

/-- C1, counterexample: the claim quantifies over sequences that may use
`WriteFile`, but `WriteFile`'s `defer fs.Close()` closes the file before the
stream is consumed, so for the single operation
`WriteFile("file", "report.txt")` (file content `"hello"`) the stream
errors with `file already closed` after the header literal instead of
producing the appended source's full content followed by the closing
boundary. -/
theorem c1_counterexample :
    ((writeFile (New (str "bnd")) (str "file") (str "report.txt") (str "hello")).1.map
        (fun mr => (drainMR 100 mr).2.1)) = some (some (str "file already closed")) ∧
    ((writeFile (New (str "bnd")) (str "file") (str "report.txt") (str "hello")).1.map
        (fun mr => (drainMR 100 mr).1)) ≠
      some (fileFormLit (str "bnd") (str "report.txt") ++ str "hello" ++ closeLit (str "bnd")) := by
  decide

/-- C1 (amended): for every sequence of appends through `AddReader` and
`AddFormReader` (no `WriteFile`, whose closed file makes the stream error),
repeatedly calling `Read` delivers exactly the concatenation of each
appended source's content in append order followed by the closing-boundary
literal, with nothing after it and no error. -/
theorem c1_stream_equals_concat {b : List Char} {ops : List Op} {mr : MultipartReader}
    {c : Nat} (h : applyOps (New b) ops = some mr)
    (hnf : ∀ op ∈ ops, op.noFile = true) (hc : 1 ≤ c) :
    (drainMR c mr).1 = (ops.map (opBytes b)).flatten ++ closeLit b ∧
    (drainMR c mr).2.1 = none :=
  applyOps_drain h hnf hc

/-- Witness for C1 at a concrete input. -/
theorem c1_witness :
    (∀ op ∈ c1ops, op.noFile = true) ∧ (1 : Nat) ≤ 16 ∧
    ∃ mr, applyOps (New (str "bnd")) c1ops = some mr ∧
      (drainMR 16 mr).1 = (c1ops.map (opBytes (str "bnd"))).flatten ++ closeLit (str "bnd") ∧
      (drainMR 16 mr).2.1 = none := by
  refine ⟨by decide, by decide, ?_⟩
  cases hm : applyOps (New (str "bnd")) c1ops with
  | none => exact absurd hm (by decide)
  | some mr =>
    obtain ⟨h1, h2⟩ :=
      @c1_stream_equals_concat (str "bnd") c1ops mr 16 hm (by decide) (by decide)
    exact ⟨mr, rfl, h1, h2⟩

/-- C2: for every reader built by `New` followed by any sequence of append
operations, the closing-boundary literal is the last element of the
`readers` slice, and `AddReader` inserts the new reader immediately before
it, keeping it last. -/
theorem c2_close_always_last {b : List Char} {ops : List Op} {mr : MultipartReader}
    (h : applyOps (New b) ops = some mr) :
    mr.readers ≠ [] ∧ mr.readers.getLast? = some (closeSrc b) ∧
    ∀ (r : Src) (l : Int), (addReader mr r l).map MultipartReader.readers =
      some (mr.readers.dropLast ++ [r, closeSrc b]) := by
  obtain ⟨hr, -, -, -, -, -, -⟩ := applyOps_New h
  have hpre : mr.readers = (⟨[], true⟩ :: (ops.map (opSrcs b)).flatten) ++ [closeSrc b] := by
    rw [hr]
  refine ⟨by rw [hpre]; simp, by rw [hpre]; exact List.getLast?_concat _, ?_⟩
  intro r l
  rw [addReader_append r l hpre]
  simp only [Option.map_some', hpre, List.dropLast_concat]

/-- Witness for C2 at a concrete input (no appends). -/
theorem c2_witness :
    (New (str "b")).readers ≠ [] ∧
    (New (str "b")).readers.getLast? = some (closeSrc (str "b")) ∧
    ∀ (r : Src) (l : Int),
      (addReader (New (str "b")) r l).map MultipartReader.readers =
        some ((New (str "b")).readers.dropLast ++ [r, closeSrc (str "b")]) :=
  @c2_close_always_last (str "b") [] (New (str "b")) rfl

/-- C3, counterexample: after one `Read` the cached cursor exists, yet a
subsequent `AddReader` succeeds — the code has no `AlreadyConsumingError`
and the append does not fail. -/
theorem c3_counterexample :
    (Read (New (str "bnd")) 4).mr.multiReader.isSome = true ∧
    (addReader (Read (New (str "bnd")) 4).mr ⟨str "x", true⟩ 1).isSome = true := by
  decide

/-- C3 (amended): appending after the cursor exists does not fail (there is
no `AlreadyConsumingError`); the appended source is excluded from the
cached cursor, so the bytes already observed and the bytes still to be
delivered by it are unchanged. -/
theorem c3_append_after_read_no_error {mr : MultipartReader} {ms : List Src}
    (r : Src) (l : Int) (c : Nat)
    (hne : mr.readers ≠ []) (hms : mr.multiReader = some ms) :
    ∃ mr2, addReader mr r l = some mr2 ∧ mr2.multiReader = some ms ∧
      (drainMR c mr2).1 = (drainMR c mr).1 ∧
      (drainMR c mr2).2.1 = (drainMR c mr).2.1 := by
  obtain ⟨pre, x, hpx⟩ : ∃ pre x, mr.readers = pre ++ [x] := by
    rcases mr.readers.eq_nil_or_concat' with h1 | ⟨L, e, h1⟩
    · exact absurd h1 hne
    · exact ⟨L, e, h1⟩
  rw [addReader_append r l hpx]
  refine ⟨_, rfl, hms, ?_⟩
  have hms2 : ({ mr with readers := pre ++ [r, x], length := mr.length + l } :
      MultipartReader).multiReader = some ms := hms
  exact drainMR_congr c ((cursorOf_eq_of_some hms2).trans (cursorOf_eq_of_some hms).symm)

/-- Witness for C3 at a concrete input: a reader whose cursor was built by
`SetupRequest`. -/
theorem c3_witness :
    ∃ mr2, addReader (setupRequest (New (str "b"))).2 ⟨str "x", true⟩ 1 = some mr2 ∧
      mr2.multiReader = some (New (str "b")).readers ∧
      (drainMR 4 mr2).1 = (drainMR 4 (setupRequest (New (str "b"))).2).1 ∧
      (drainMR 4 mr2).2.1 = (drainMR 4 (setupRequest (New (str "b"))).2).2.1 :=
  c3_append_after_read_no_error ⟨str "x", true⟩ 1 4 (by decide) (by decide)

/-- C4, counterexample: appending a source of unknown length forces the
caller to pass some number (here 0) — there is no notion of "unknown" —
and `SetupRequest` still sets the numeric `ContentLength` 11, although the
body produces 16 bytes: the emitted length undercounts the real payload. -/
theorem c4_counterexample :
    ((addReader (New (str "bnd")) ⟨str "hello", true⟩ 0).map
        (fun mr => ((setupRequest mr).1.contentLength, ((drainMR 64 mr).1.length : Int)))) =
      some (11, 16) ∧ (11 : Int) < 16 := by
  decide

/-- C4 (amended): the code has no "unknown" length: every append carries a
numeric declared length, and `SetupRequest` always emits the numeric total
`len(closing boundary) + sum of declared lengths`, never "unknown".
Whenever the declared lengths understate the true content, that numeric
total undercounts the bytes the body actually produces. -/
theorem c4_contentLength_always_numeric {b : List Char} {ops : List Op}
    {mr : MultipartReader} {c : Nat} (h : applyOps (New b) ops = some mr) :
    (setupRequest mr).1.contentLength = ((closeLit b).length : Int) + sumDecl b ops ∧
    ((∀ op ∈ ops, op.noFile = true) → 1 ≤ c →
      ((drainMR c mr).1.length : Int) =
        ((((ops.map (opBytes b)).flatten).length : Int) + ((closeLit b).length : Int))) ∧
    ((∀ op ∈ ops, op.noFile = true) → 1 ≤ c →
      sumDecl b ops < (((ops.map (opBytes b)).flatten).length : Int) →
      (setupRequest mr).1.contentLength < ((drainMR c mr).1.length : Int)) := by
  obtain ⟨hr, hl, -, -, -, -, -⟩ := applyOps_New h
  have h1 : (setupRequest mr).1.contentLength = ((closeLit b).length : Int) + sumDecl b ops := by
    rw [setupRequest_contentLength, hl]
  have h2 : (∀ op ∈ ops, op.noFile = true) → 1 ≤ c →
      ((drainMR c mr).1.length : Int) =
        ((((ops.map (opBytes b)).flatten).length : Int) + ((closeLit b).length : Int)) := by
    intro hnf hc
    obtain ⟨d1, -⟩ := applyOps_drain h hnf hc
    rw [d1, List.length_append]
    push_cast
    ring
  refine ⟨h1, h2, ?_⟩
  intro hnf hc hlt
  rw [h1, h2 hnf hc]
  omega

/-- Witness for C4 at a concrete input. -/
theorem c4_witness :
    (∀ op ∈ c4ops, op.noFile = true) ∧ (1 : Nat) ≤ 64 ∧
    sumDecl (str "bnd") c4ops < (((c4ops.map (opBytes (str "bnd"))).flatten).length : Int) ∧
    ∃ mr, applyOps (New (str "bnd")) c4ops = some mr ∧
      (setupRequest mr).1.contentLength < ((drainMR 64 mr).1.length : Int) := by
  refine ⟨by decide, by decide, by decide, ?_⟩
  cases hm : applyOps (New (str "bnd")) c4ops with
  | none => exact absurd hm (by decide)
  | some mr =>
    exact ⟨mr, rfl, (@c4_contentLength_always_numeric (str "bnd") c4ops mr 64 hm).2.2
      (by decide) (by decide) (by decide)⟩

/-- C5, counterexample: `SetBoundary` on a fresh reader succeeds with a
valid token but does not regenerate the stored content-type nor the
closing-boundary literal (both still carry the original boundary), and a
`SetBoundary` performed after a `Read` also succeeds instead of failing. -/
theorem c5_counterexample :
    (SetBoundary (New (str "abc123")) (str "xyz789")).1 = none ∧
    (SetBoundary (New (str "abc123")) (str "xyz789")).2.contentType =
      str "multipart/form-data; boundary=abc123" ∧
    (SetBoundary (New (str "abc123")) (str "xyz789")).2.readers.getLast? =
      some ⟨str "\r\n--abc123--\r\n", true⟩ ∧
    (SetBoundary (Read (New (str "abc123")) 4).mr (str "qqq")).1 = none := by
  decide

lemma writerSetBoundary_none_iff (w : GoWriter) (b : List Char) :
    (writerSetBoundary w b).1 = none ↔ (w.lastpart = false ∧ validBoundary b = true) := by
  rw [writerSetBoundary]
  cases hlp : w.lastpart with
  | true => simp [hlp]
  | false =>
    cases hlen1 : decide (b.length < 1) with
    | true =>
      have hx : b.length < 1 := of_decide_eq_true hlen1
      have hd : decide (1 ≤ b.length) = false := by
        simp only [decide_eq_false_iff_not]
        omega
      have hv : validBoundary b = false := by simp [validBoundary, hd]
      simp [hlen1, hv]
    | false =>
      cases hlen2 : decide (70 < b.length) with
      | true =>
        have hx : 70 < b.length := of_decide_eq_true hlen2
        have hd : decide (b.length ≤ 70) = false := by
          simp only [decide_eq_false_iff_not]
          omega
        have hv : validBoundary b = false := by simp [validBoundary, hd]
        simp [hlen1, hlen2, hv]
      | false =>
        have hx1 : ¬ (b.length < 1) := of_decide_eq_false hlen1
        have hx2 : ¬ (70 < b.length) := of_decide_eq_false hlen2
        cases hall : b.all boundaryChar with
        | false =>
          have hv : validBoundary b = false := by simp [validBoundary, hall]
          simp [hlen1, hlen2, hall, hv]
        | true =>
          cases hlast : b.getLast? == some ' ' with
          | true =>
            have hv : validBoundary b = false := by simp [validBoundary, hlast]
            simp [hlen1, hlen2, hall, hlast, hv]
          | false =>
            have hv : validBoundary b = true := by
              simp [validBoundary, hall, hlast]
              omega
            simp [hlen1, hlen2, hall, hlast, hv]

lemma writerSetBoundary_success_writer {w : GoWriter} {b : List Char}
    (h : (writerSetBoundary w b).1 = none) :
    (writerSetBoundary w b).2 = ⟨b, w.lastpart⟩ := by
  rw [writerSetBoundary] at h ⊢
  split at h
  · simp at h
  · next h1 =>
    split at h
    · simp at h
    · next h2 =>
      split at h
      · simp at h
      · next h3 => rw [if_neg h1, if_neg h2, if_neg h3]

lemma writerSetBoundary_fail_writer {w : GoWriter} {b : List Char}
    (h : (writerSetBoundary w b).1 ≠ none) :
    (writerSetBoundary w b).2 = w := by
  rw [writerSetBoundary] at h ⊢
  split
  · rfl
  · next h1 =>
    split
    · rfl
    · next h2 =>
      split
      · rfl
      · next h3 =>
        rw [if_neg h1, if_neg h2, if_neg h3] at h
        exact absurd rfl h

/-- C5 (amended): `SetBoundary` never touches the stored content-type,
boundary, readers (so the closing-boundary literal is unchanged) or the
cached cursor; it succeeds exactly when the embedded writer has not yet
written a part and the token satisfies the MIME boundary syntax (a prior
`Read` is irrelevant); on success only the embedded writer's boundary
field is updated, and on failure the whole struct is left intact. -/
theorem c5_setBoundary_updates_writer_only (mr : MultipartReader) (b : List Char) :
    (SetBoundary mr b).2.contentType = mr.contentType ∧
    (SetBoundary mr b).2.boundary = mr.boundary ∧
    (SetBoundary mr b).2.readers = mr.readers ∧
    (SetBoundary mr b).2.multiReader = mr.multiReader ∧
    ((SetBoundary mr b).1 = none ↔ mr.writer.lastpart = false ∧ validBoundary b = true) ∧
    ((SetBoundary mr b).1 = none → (SetBoundary mr b).2.writer = ⟨b, mr.writer.lastpart⟩) ∧
    ((SetBoundary mr b).1 ≠ none → (SetBoundary mr b).2 = mr) := by
  refine ⟨rfl, rfl, rfl, rfl, writerSetBoundary_none_iff mr.writer b, ?_, ?_⟩
  · intro h
    exact writerSetBoundary_success_writer h
  · intro h
    show ({ mr with writer := (writerSetBoundary mr.writer b).2 }) = mr
    rw [writerSetBoundary_fail_writer h]

/-- Witness for C5 at concrete inputs: a valid token succeeds and updates
only the writer's boundary; a token with an embedded CRLF fails and leaves
the struct exactly as it was. -/
theorem c5_witness :
    (SetBoundary (New (str "bnd")) (str "tok")).1 = none ∧
    (SetBoundary (New (str "bnd")) (str "tok")).2.writer = ⟨str "tok", false⟩ ∧
    (SetBoundary (New (str "bnd")) (str "bad\r\nbad")).1 ≠ none ∧
    (SetBoundary (New (str "bnd")) (str "bad\r\nbad")).2 = New (str "bnd") := by
  have h1 := c5_setBoundary_updates_writer_only (New (str "bnd")) (str "tok")
  have h2 := c5_setBoundary_updates_writer_only (New (str "bnd")) (str "bad\r\nbad")
  have hok : (SetBoundary (New (str "bnd")) (str "tok")).1 = none :=
    h1.2.2.2.2.1.mpr ⟨rfl, by decide⟩
  have hbad : (SetBoundary (New (str "bnd")) (str "bad\r\nbad")).1 ≠ none := by
    intro hc
    exact absurd (h2.2.2.2.2.1.mp hc).2 (by decide)
  exact ⟨hok, h1.2.2.2.2.2.1 hok, hbad, h2.2.2.2.2.2.2 hbad⟩

/-- C6, counterexample: `New` initializes the readers slice with two
elements (the writer's empty body buffer and the closing-boundary
literal), not with exactly one element. -/
theorem c6_counterexample :
    (New (str "b")).readers.length = 2 ∧ ¬ (New (str "b")).readers.length = 1 := by
  decide

/-- C6 (amended): `New` stores the boundary token, derives the content-type
(`multipart/form-data; boundary=<token>` whenever the token needs no
quoting), and initializes the readers slice with exactly two elements — an
empty literal (the writer's body buffer) and the closing-boundary literal
`"\r\n--<boundary>--\r\n"` — with no external sources; consequently an
assembler with no parts appended streams exactly the closing-boundary
line. -/
theorem c6_New_two_readers {b : List Char} {c : Nat} (hc : 1 ≤ c) :
    (New b).boundary = b ∧
    (New b).readers = [⟨[], true⟩, ⟨closeLit b, true⟩] ∧
    (New b).multiReader = none ∧
    (New b).length = ((closeLit b).length : Int) ∧
    (b.any needsQuote = false →
      (New b).contentType = str "multipart/form-data; boundary=" ++ b) ∧
    (drainMR c (New b)).1 = closeLit b ∧ (drainMR c (New b)).2.1 = none := by
  obtain ⟨d1, d2⟩ := @applyOps_drain b [] (New b) c rfl (by simp) hc
  refine ⟨rfl, rfl, rfl, by simp [New], ?_, by simpa using d1, d2⟩
  intro hq
  simp [New, formDataContentType, hq]

/-- Witness for C6 at a concrete input. -/
theorem c6_witness :
    (New (str "bnd")).boundary = str "bnd" ∧
    (New (str "bnd")).readers = [⟨[], true⟩, ⟨closeLit (str "bnd"), true⟩] ∧
    (New (str "bnd")).multiReader = none ∧
    (New (str "bnd")).length = ((closeLit (str "bnd")).length : Int) ∧
    (New (str "bnd")).contentType = str "multipart/form-data; boundary=" ++ str "bnd" ∧
    (drainMR 4 (New (str "bnd"))).1 = closeLit (str "bnd") ∧
    (drainMR 4 (New (str "bnd"))).2.1 = none := by
  obtain ⟨h1, h2, h3, h4, h5, h6, h7⟩ := @c6_New_two_readers (str "bnd") 4 (by decide)
  exact ⟨h1, h2, h3, h4, h5 (by decide), h6, h7⟩

/-- C7: the claim says the assembler never closes a file it streams, but
`WriteFile` runs `defer fs.Close()`, so the handle is already closed when
`WriteFile` returns and the stream later fails with `file already closed`
at that source; only `AddFile` (the revision that takes an already-open
`*os.File`) leaves the handle open. -/
theorem c7_writeFile_closes_handle :
    (writeFile (New (str "bnd")) (str "file") (str "report.txt") (str "hello")).2 = false ∧
    ((writeFile (New (str "bnd")) (str "file") (str "report.txt") (str "hello")).1.map
        (fun mr => (drainMR 32 mr).2.1)) = some (some (str "file already closed")) ∧
    (addFile (New (str "bnd")) (str "report.txt") (str "hello")).2 = true := by
  decide

/-- C8: the bytes-read counter starts at zero after `New`, each `Read`
adds exactly the number of bytes it delivered (so the counter never
decreases), and after fully draining a reader built by `New` and appends
the counter equals the total number of bytes the stream produced. -/
theorem c8_count_tracks_bytes (b : List Char) (ops : List Op)
    (mr0 mr : MultipartReader) (c : Nat) :
    (New b).Count = 0 ∧
    (Read mr c).mr.count = mr.count + ((Read mr c).chunk.length : Int) ∧
    mr.count ≤ (Read mr c).mr.count ∧
    (applyOps (New b) ops = some mr0 →
      (drainMR c mr0).2.2.Count = ((drainMR c mr0).1.length : Int)) := by
  have hstep : (Read mr c).mr.count = mr.count + ((Read mr c).chunk.length : Int) := by
    rw [Read_eq]
    cases h : multiRead (cursorOf mr) c with
    | error e => simp
    | ok p =>
      obtain ⟨chunk, ms2⟩ := p
      simp
  refine ⟨rfl, hstep, ?_, ?_⟩
  · rw [hstep]
    have : (0 : Int) ≤ ((Read mr c).chunk.length : Int) := Int.ofNat_nonneg _
    omega
  · intro h
    obtain ⟨-, -, -, -, -, hcnt, -⟩ := applyOps_New h
    obtain ⟨-, -, d3⟩ := drainMR_spec c mr0
    rw [MultipartReader.Count, d3, hcnt, zero_add]

/-- Witness for C8 at a concrete input. -/
theorem c8_witness :
    (New (str "b")).Count = 0 ∧
    (Read (New (str "b")) 3).mr.count =
      (New (str "b")).count + ((Read (New (str "b")) 3).chunk.length : Int) ∧
    (New (str "b")).count ≤ (Read (New (str "b")) 3).mr.count ∧
    (drainMR 3 (New (str "b"))).2.2.Count = ((drainMR 3 (New (str "b"))).1.length : Int) := by
  obtain ⟨h1, h2, h3, h4⟩ := c8_count_tracks_bytes (str "b") [] (New (str "b")) (New (str "b")) 3
  exact ⟨h1, h2, h3, h4 rfl⟩

/-- C9: every reader built by `New` and appends keeps at least two entries
in the readers slice, so `AddReader`'s slice expressions are in bounds and
it succeeds; on the zero-value struct (empty readers slice) the slice
bound `i-1` is `-1` and `AddReader` panics, modelled by `none`. -/
theorem c9_addReader_in_bounds (b : List Char) (ops : List Op) (mr : MultipartReader)
    (r : Src) (l : Int) :
    (applyOps (New b) ops = some mr →
      2 ≤ mr.readers.length ∧ (addReader mr r l).isSome = true) ∧
    addReader zeroValue r l = none := by
  refine ⟨?_, rfl⟩
  intro h
  obtain ⟨hr, -, -, -, -, -, -⟩ := applyOps_New h
  constructor
  · rw [hr]
    simp
  · have hpre : mr.readers = (⟨[], true⟩ :: (ops.map (opSrcs b)).flatten) ++ [closeSrc b] := by
      rw [hr]
    rw [addReader_append r l hpre]
    rfl

/-- Witness for C9 at a concrete input. -/
theorem c9_witness :
    (2 ≤ (New (str "b")).readers.length ∧
      (addReader (New (str "b")) ⟨str "x", true⟩ 1).isSome = true) ∧
    addReader zeroValue ⟨str "x", true⟩ 1 = none := by
  obtain ⟨h1, h2⟩ := c9_addReader_in_bounds (str "b") [] (New (str "b")) ⟨str "x", true⟩ 1
  exact ⟨h1 rfl, h2⟩

/-- C10: once the cursor is cached, a further `AddReader` leaves the bytes
the stream produces unchanged (the new reader is silently excluded, with no
error), yet still adds its declared length to `mr.length`, so a later
`SetupRequest` sets a `ContentLength` larger than the number of bytes the
body actually produces. -/
theorem c10_stale_cursor_overcounts {mr : MultipartReader} {ms : List Src}
    (r : Src) (l : Int) (c : Nat)
    (hne : mr.readers ≠ []) (hms : mr.multiReader = some ms) :
    ∃ mr2, addReader mr r l = some mr2 ∧
      (drainMR c mr2).1 = (drainMR c mr).1 ∧
      mr2.length = mr.length + l ∧
      (setupRequest mr2).1.contentLength = mr.length + l ∧
      (0 < l → mr.length = ((drainMR c mr).1.length : Int) →
        ((drainMR c mr2).1.length : Int) < (setupRequest mr2).1.contentLength) := by
  obtain ⟨pre, x, hpx⟩ : ∃ pre x, mr.readers = pre ++ [x] := by
    rcases mr.readers.eq_nil_or_concat' with h1 | ⟨L, e, h1⟩
    · exact absurd h1 hne
    · exact ⟨L, e, h1⟩
  rw [addReader_append r l hpx]
  have hms2 : ({ mr with readers := pre ++ [r, x], length := mr.length + l } :
      MultipartReader).multiReader = some ms := hms
  have hdr := drainMR_congr c ((cursorOf_eq_of_some hms2).trans (cursorOf_eq_of_some hms).symm)
  have hcl : (setupRequest ({ mr with readers := pre ++ [r, x], length := mr.length + l } : MultipartReader)).1.contentLength = mr.length + l :=
    setupRequest_contentLength _
  refine ⟨_, rfl, hdr.1, rfl, hcl, ?_⟩
  intro hl0 hacc
  rw [hcl, hdr.1, ← hacc]
  omega

/-- Witness for C10 at a concrete input: a reader whose cursor was built by
`SetupRequest` and whose stored length matches the bytes it produces. -/
theorem c10_witness :
    ∃ mr2, addReader (setupRequest (New (str "b"))).2 ⟨str "xyz", true⟩ 5 = some mr2 ∧
      ((drainMR 4 mr2).1.length : Int) < (setupRequest mr2).1.contentLength := by
  obtain ⟨mr2, ha, hd, hl, hcl, himp⟩ :=
    @c10_stale_cursor_overcounts (setupRequest (New (str "b"))).2 (New (str "b")).readers
      ⟨str "xyz", true⟩ 5 4 (by decide) (by decide)
  exact ⟨mr2, ha, himp (by decide) (by decide)⟩



